import Mathlib

/-!
Shallow embedding of the reminder subsystem of `nudgeme-ai`
(`app/reminder_state.py` and `app/reminder_engine.py`).

Modelling conventions:
* Python `datetime` values are `PyDateTime`: a wall-clock reading in minutes
  together with an optional UTC offset (`none` models a naive datetime,
  `some o` an aware one whose `tzinfo` resolves to a fixed offset of `o`
  minutes).  Comparisons between aware datetimes compare instants
  (`wall - offset`), exactly as Python does.
* The JSON state file of `ReminderStateStore` is an association list from
  event id to `EventState` (the per-event dict with keys `sent` and
  `last_updated`).  `Store` carries the in-memory dict (`mem`, Python's
  `self._state`) and the deserialised content of the file on disk (`disk`);
  `_persist` copies `mem` to `disk` and its possible failure is an explicit
  boolean argument — `false` models the write raising, in which case the
  exception propagates but the in-memory mutations done before the call
  remain, exactly as in CPython.
* External effects of `_tick` are environment parameters: the fetch outcome
  is an `Option (List Event)` (`none` = `list_upcoming` raised), the `i`-th
  `send_message` call succeeds iff `sendOk i`, the `i`-th `_persist` call
  succeeds iff `persistOk i`, and `ZoneInfo` is a lookup in a finite table
  of zone names to fixed offsets (`none` = `ZoneInfo` raised).
* A raised-and-uncaught exception is the boolean `raised` in the result;
  state mutated before the raise is kept, as in Python.
-/

namespace NudgeMe

/-- A Python `datetime`: wall-clock minutes plus an optional fixed UTC offset
in minutes (`none` = naive). -/
structure PyDateTime where
  wall : Int
  off : Option Int
deriving Repr, DecidableEq

/-- The instant an aware datetime denotes (minutes UTC).  Only used where the
Python code compares aware datetimes. -/
def PyDateTime.instant (d : PyDateTime) : Int :=
  d.wall - d.off.getD 0

/-- `d - timedelta(minutes := m)`: shifts the wall clock, keeps the tzinfo. -/
def PyDateTime.subMinutes (d : PyDateTime) (m : Int) : PyDateTime :=
  { d with wall := d.wall - m }

/-- `d.replace(tzinfo := o)`: keeps the wall clock, sets the offset. -/
def PyDateTime.replaceTz (d : PyDateTime) (o : Int) : PyDateTime :=
  { d with off := some o }

/-- Injective rendering of a datetime, standing for `datetime.isoformat()`
(used by the engine as the version token). -/
def isoformat (d : PyDateTime) : String :=
  toString d.wall ++ (match d.off with | none => "" | some o => "+" ++ toString o)

/-! ## `app/reminder_state.py` -/

/-- The per-event record `{"sent": [...], "last_updated": ...}`. -/
structure EventState where
  sent : List String
  last_updated : String
deriving Repr, DecidableEq

/-- The mapping held in `ReminderStateStore._state` (a JSON object keyed by
event id). -/
abbrev StateMap := List (String × EventState)

/-- `self._state.get(event_id)`. -/
def lookupState : StateMap → String → Option EventState
  | [], _ => none
  | (k, v) :: rest, e => if k = e then some v else lookupState rest e

/-- `self._state[event_id] = v` (replace in place, insert at the end if the
key is absent — dict insertion order). -/
def setState : StateMap → String → EventState → StateMap
  | [], e, v => [(e, v)]
  | (k, w) :: rest, e, v =>
    if k = e then (e, v) :: rest else (k, w) :: setState rest e v

/-- `self._state.pop(event_id)`. -/
def removeState : StateMap → String → StateMap
  | [], _ => []
  | (k, w) :: rest, e =>
    if k = e then removeState rest e else (k, w) :: removeState rest e

/-- Python's `in` on a list of strings. -/
def memStr (x : String) : List String → Bool
  | [] => false
  | y :: ys => if x = y then true else memStr x ys

/-- Insert a string into a (sorted) list, keeping it sorted. -/
def insertSorted (x : String) : List String → List String
  | [] => [x]
  | y :: ys => if x ≤ y then x :: y :: ys else y :: insertSorted x ys

/-- `list.sort()` on strings: any sorting algorithm yields the same list,
since equal-under-≤ strings are equal. -/
def sortStrings : List String → List String
  | [] => []
  | x :: xs => insertSorted x (sortStrings xs)

/-- `ReminderStateStore.has_sent`: true iff a record exists, its
`last_updated` equals the given version, and the kind is in its `sent` list. -/
def hasSent (m : StateMap) (event_id reminder_type last_updated : String) : Bool :=
  match lookupState m event_id with
  | none => false
  | some st =>
    if st.last_updated = last_updated then memStr reminder_type st.sent else false

/-- The record that `mark_sent` leaves for `event_id` in `self._state`:
`setdefault` with a fresh record, reset of `sent` on a version change, then
append-if-absent and `sort()`. -/
def updatedEventState (m : StateMap) (event_id reminder_type last_updated : String) :
    EventState :=
  let st0 := (lookupState m event_id).getD { sent := [], last_updated := last_updated }
  let st1 :=
    if st0.last_updated = last_updated then st0
    else { sent := [], last_updated := last_updated }
  if memStr reminder_type st1.sent then st1
  else { st1 with sent := sortStrings (st1.sent ++ [reminder_type]) }

/-- The effect of `mark_sent` on the in-memory dict `self._state` (everything
before the `self._persist()` call). -/
def markSentMem (m : StateMap) (event_id reminder_type last_updated : String) : StateMap :=
  setState m event_id (updatedEventState m event_id reminder_type last_updated)

/-- A `ReminderStateStore`: the in-memory dict and the (deserialised) content
of the state file on disk. -/
structure Store where
  mem : StateMap
  disk : StateMap
deriving Repr, DecidableEq

/-- `ReminderStateStore.mark_sent`.  `pok` is whether the `_persist` call
succeeds; the returned boolean is `false` when `_persist` raised (the
exception propagates to the caller, but the in-memory mutation already
happened). -/
def Store.markSent (s : Store) (event_id reminder_type last_updated : String)
    (pok : Bool) : Store × Bool :=
  let mem := markSentMem s.mem event_id reminder_type last_updated
  if pok then ({ mem := mem, disk := mem }, true)
  else ({ mem := mem, disk := s.disk }, false)

/-- `ReminderStateStore.clear_event`: pop and persist if the record exists,
otherwise do nothing (and do not touch the file). -/
def Store.clearEvent (s : Store) (event_id : String) (pok : Bool) : Store × Bool :=
  if (lookupState s.mem event_id).isSome then
    let mem := removeState s.mem event_id
    if pok then ({ mem := mem, disk := mem }, true)
    else ({ mem := mem, disk := s.disk }, false)
  else (s, true)

/-! ## `app/reminder_engine.py` -/

/-- The fields of `EventResponse` that `ReminderEngine._tick` reads
(`models.py`; the response fields the engine never touches are omitted).
`timezone` is a plain string there, with `""` falsy for Python's `or`. -/
structure Event where
  id : String
  summary : String
  start_time : PyDateTime
  end_time : PyDateTime
  timezone : String
  updated_at : Option PyDateTime
deriving Repr, DecidableEq

/-- `ZoneInfo(name)`: resolve a zone name in the environment's table;
`none` models the `ZoneInfoNotFoundError` raise. -/
def zoneLookup : List (String × Int) → String → Option Int
  | [], _ => none
  | (n, o) :: rest, name => if n = name then some o else zoneLookup rest name

/-- The ambient outcomes of one `_tick`: the zone table, the configured
timezone, the current wall clock, and the success of the `i`-th
`send_message` and `_persist` calls. -/
structure Env where
  zones : List (String × Int)
  settingsTz : String
  nowWall : Int
  sendOk : Nat → Bool
  persistOk : Nat → Bool

/-- Lines 58–60 of the engine: make `start` aware, resolving
`event.timezone or settings.timezone` when it is naive; `none` models the
`ZoneInfo` constructor raising. -/
def attachTz (env : Env) (ev : Event) : Option PyDateTime :=
  match ev.start_time.off with
  | some _ => some ev.start_time
  | none =>
    let name := if ev.timezone = "" then env.settingsTz else ev.timezone
    match zoneLookup env.zones name with
    | some o => some (ev.start_time.replaceTz o)
    | none => none

/-- One entry of the engine's `reminders` list: kind, trigger datetime, and
the message template split around its single `{title}` placeholder. -/
structure Reminder where
  kind : String
  trigger : PyDateTime
  pre : String
  post : String
deriving Repr

/-- Text of the 2h template before the placeholder. -/
def template2hPre : String := "⏰ Heads up! \x27"

/-- Text of the 2h template after the placeholder. -/
def template2hPost : String := "\x27 starts in ~2 hours."

/-- Text of the 10m template before the placeholder. -/
def template10mPre : String := "🚀 Almost go time! \x27"

/-- Text of the 10m template after the placeholder. -/
def template10mPost : String := "\x27 kicks off in 10 minutes."

/-- The engine's `reminders` list for a given aware `start` (lines 61–64):
the `"2h"` entry first, then the `"10m"` entry. -/
def remindersFor (start : PyDateTime) : List Reminder :=
  [ { kind := "2h", trigger := start.subMinutes 120,
      pre := template2hPre, post := template2hPost },
    { kind := "10m", trigger := start.subMinutes 10,
      pre := template10mPre, post := template10mPost } ]

/-- Running state of one `_tick`: the store, the bodies passed to
`send_message` so far (in call order), the event ids `clear_event` was
invoked on so far (in call order), and the number of `_persist` calls so
far. -/
structure TickSt where
  store : Store
  calls : List String
  cleared : List String
  nPersist : Nat
deriving Repr

/-- Lines 66–73 of the engine, for one `(kind, trigger, template)` entry:
if the reminder is due and not yet sent under this version, render the body
and `try: send; mark_sent` — an exception from either is caught and logged,
so this step never raises. -/
def processReminder (env : Env) (now : PyDateTime) (ev : Event) (key : String)
    (r : Reminder) (st : TickSt) : TickSt :=
  if r.trigger.instant ≤ now.instant ∧
      hasSent st.store.mem ev.id r.kind key = false then
    let body := r.pre ++ ev.summary ++ r.post
    let calls := st.calls ++ [body]
    if env.sendOk st.calls.length then
      let store' := (st.store.markSent ev.id r.kind key (env.persistOk st.nPersist)).1
      { st with store := store', calls := calls, nPersist := st.nPersist + 1 }
    else
      { st with calls := calls }
  else st

/-- Lines 58–73 of the engine, for one event: attach a timezone to `start`
(raising, uncaught, if the zone name is unknown), compute the version key
`(event.updated_at or event.start_time).isoformat()`, then process both
reminder entries in order.  The boolean is `true` iff this event's
processing raised. -/
def processEvent (env : Env) (now : PyDateTime) (ev : Event) (st : TickSt) :
    TickSt × Bool :=
  match attachTz env ev with
  | none => (st, true)
  | some start =>
    let key := isoformat (ev.updated_at.getD ev.start_time)
    ((remindersFor start).foldl (fun acc r => processReminder env now ev key r acc) st,
      false)

/-- The `for event in events` reminder loop (lines 57–73): an uncaught
exception from one event's processing aborts the rest of the loop. -/
def processEvents (env : Env) (now : PyDateTime) :
    List Event → TickSt → TickSt × Bool
  | [], st => (st, false)
  | ev :: rest, st =>
    match processEvent env now ev st with
    | (st', false) => processEvents env now rest st'
    | (st', true) => (st', true)

/-- The cleanup loop (lines 76–79): for each fetched event whose `end_time`
is before `horizon`, call `clear_event`.  Comparing a naive `end_time` with
the aware `horizon` raises (`TypeError`), as does a failing `_persist`
inside `clear_event`; neither is caught. -/
def cleanupEvents (env : Env) (horizonI : Int) :
    List Event → TickSt → TickSt × Bool
  | [], st => (st, false)
  | ev :: rest, st =>
    match ev.end_time.off with
    | none => (st, true)
    | some _ =>
      if ev.end_time.instant < horizonI then
        let st1 := { st with cleared := st.cleared ++ [ev.id] }
        let present := (lookupState st1.store.mem ev.id).isSome
        let res := st1.store.clearEvent ev.id (env.persistOk st1.nPersist)
        let n2 := st1.nPersist + (if present then 1 else 0)
        let st2 := { st1 with store := res.1, nPersist := n2 }
        if res.2 then cleanupEvents env horizonI rest st2 else (st2, true)
      else cleanupEvents env horizonI rest st

/-- Observable outcome of one `_tick`. -/
structure TickResult where
  store : Store
  calls : List String
  cleared : List String
  raised : Bool
deriving Repr, DecidableEq

/-- `ReminderEngine._tick`.  `fetch` is the outcome of
`calendar.list_upcoming(hours=24)` (`none` = it raised, which is caught and
ends the tick with no side effects).  Then `now` is built from the
configured timezone (an unknown zone raises, uncaught), the reminder loop
runs, and — if nothing raised — the cleanup loop runs with
`horizon = now - 1h`. -/
def runTick (env : Env) (fetch : Option (List Event)) (s0 : Store) : TickResult :=
  match fetch with
  | none => { store := s0, calls := [], cleared := [], raised := false }
  | some events =>
    match zoneLookup env.zones env.settingsTz with
    | none => { store := s0, calls := [], cleared := [], raised := true }
    | some off =>
      let now : PyDateTime := { wall := env.nowWall, off := some off }
      let st0 : TickSt := { store := s0, calls := [], cleared := [], nPersist := 0 }
      match processEvents env now events st0 with
      | (st1, true) =>
        { store := st1.store, calls := st1.calls, cleared := st1.cleared, raised := true }
      | (st1, false) =>
        let res := cleanupEvents env (now.instant - 60) events st1
        { store := res.1.store, calls := res.1.calls, cleared := res.1.cleared,
          raised := res.2 }

/-! ## File-level model of `_persist` (for the atomicity question)

`_persist` is `self.path.open("w")` followed by `json.dump(...)`: a
truncating open of the target file and then the write, in place.  We model
the file system as an association list of path to content and a persist
strategy as the list of file operations it performs, so that interrupting it
after any prefix is expressible. -/

/-- A primitive file-system operation. -/
inductive FileOp where
  | openTrunc : String → FileOp
  | writeChunk : String → String → FileOp
  | rename : String → String → FileOp
deriving Repr, DecidableEq

/-- A file system: paths to contents. -/
abbrev FS := List (String × String)

/-- Content of a file, if it exists. -/
def readFile : FS → String → Option String
  | [], _ => none
  | (p, c) :: rest, q => if p = q then some c else readFile rest q

/-- Create or overwrite a file's content. -/
def setFile : FS → String → String → FS
  | [], p, c => [(p, c)]
  | (q, d) :: rest, p, c =>
    if q = p then (p, c) :: rest else (q, d) :: setFile rest p c

/-- Delete a file if present. -/
def removeFileEntry : FS → String → FS
  | [], _ => []
  | (q, d) :: rest, p =>
    if q = p then removeFileEntry rest p else (q, d) :: removeFileEntry rest p

/-- Apply one file operation. -/
def applyOp (fs : FS) : FileOp → FS
  | .openTrunc p => setFile fs p ""
  | .writeChunk p s => setFile fs p ((readFile fs p).getD "" ++ s)
  | .rename src dst =>
    match readFile fs src with
    | some c => setFile (removeFileEntry fs src) dst c
    | none => fs

/-- Apply a sequence of file operations. -/
def applyOps (fs : FS) (ops : List FileOp) : FS :=
  ops.foldl applyOp fs

/-- The file operations `ReminderStateStore._persist` performs on the state
file: `open(path, "w")` (truncate in place) then the `json.dump` write. -/
def persistTrace (path payload : String) : List FileOp :=
  [FileOp.openTrunc path, FileOp.writeChunk path payload]

/-- Following the spec's words, for comparison: an atomic replacement —
write the payload to a temporary file and rename it over the target. -/
def specAtomicReplaceTrace (tmp path payload : String) : List FileOp :=
  [FileOp.openTrunc tmp, FileOp.writeChunk tmp payload, FileOp.rename tmp path]

/-! ## Concrete environments and events used in scenario claims and witnesses -/

/-- Environment for witnesses in which every external call fails to send but
everything else works. -/
def envSendFail : Env :=
  { zones := [("UTC", 0)], settingsTz := "UTC", nowWall := 0,
    sendOk := fun _ => false, persistOk := fun _ => true }

/-- Environment with a single known zone "UTC" at offset 0 in which every
send and every persist succeeds. -/
def envAllOk (nowWall : Int) : Env :=
  { zones := [("UTC", 0)], settingsTz := "UTC", nowWall := nowWall,
    sendOk := fun _ => true, persistOk := fun _ => true }

/-- An event whose naive start time forces a `ZoneInfo` lookup of a zone
name that is unknown, so timezone attachment raises. -/
def evUnknownTz : Event :=
  { id := "bad", summary := "Bad", start_time := ⟨1000, none⟩,
    end_time := ⟨1060, some 0⟩, timezone := "Atlantis/Nowhere", updated_at := none }

/-- An event with both reminders due at `nowWall = 995` whose processing
succeeds on its own. -/
def evDue : Event :=
  { id := "good", summary := "Good", start_time := ⟨1000, some 0⟩,
    end_time := ⟨1060, some 0⟩, timezone := "UTC", updated_at := none }

/-- Event already over for more than an hour at `nowWall = 995`. -/
def evOver : Event :=
  { id := "old", summary := "Old", start_time := ⟨700, some 0⟩,
    end_time := ⟨800, some 0⟩, timezone := "UTC", updated_at := none }

/-- Environment of the claim C7 scenario: the tick runs at `now = T - 5`
minutes (past both default offsets), all sends and persists succeed. -/
def env7 (T : Int) : Env := envAllOk (T - 5)

/-- The claim C7 event: starts at wall-clock minute `T` (UTC-aware). -/
def ev7 (T : Int) : Event :=
  { id := "evt-1", summary := "Standup", start_time := ⟨T, some 0⟩,
    end_time := ⟨T + 60, some 0⟩, timezone := "UTC", updated_at := none }

/-! ## Lemmas about the store operations -/

theorem lookup_setState_self (m : StateMap) (e : String) (v : EventState) :
    lookupState (setState m e v) e = some v := by
  induction m with
  | nil => simp [setState, lookupState]
  | cons hd tl ih =>
    obtain ⟨k, w⟩ := hd
    by_cases h : k = e
    · simp [setState, lookupState, h]
    · simp [setState, lookupState, h, ih]

theorem lookup_setState_ne (m : StateMap) (e e' : String) (v : EventState)
    (h : e' ≠ e) : lookupState (setState m e v) e' = lookupState m e' := by
  have h' : ¬ e = e' := fun hh => h hh.symm
  induction m with
  | nil => simp [setState, lookupState, h']
  | cons hd tl ih =>
    obtain ⟨k, w⟩ := hd
    by_cases hk : k = e
    · subst hk
      simp [setState, lookupState, h']
    · simp [setState, lookupState, hk, ih]

theorem setState_of_lookup (m : StateMap) (e : String) (v : EventState)
    (h : lookupState m e = some v) : setState m e v = m := by
  induction m with
  | nil => simp [lookupState] at h
  | cons hd tl ih =>
    obtain ⟨k, w⟩ := hd
    by_cases hk : k = e
    · subst hk
      simp [lookupState] at h
      simp [setState, h]
    · simp [lookupState, hk] at h
      simp [setState, hk, ih h]

theorem lookup_removeState (m : StateMap) (e i : String) :
    lookupState (removeState m e) i = if i = e then none else lookupState m i := by
  induction m with
  | nil => simp [removeState, lookupState]
  | cons hd tl ih =>
    obtain ⟨k, w⟩ := hd
    by_cases hk : k = e
    · subst hk
      rw [removeState, if_pos rfl, ih]
      by_cases hi : i = k
      · simp [hi]
      · have hki : ¬ k = i := fun hh => hi hh.symm
        simp [hi, lookupState, hki]
    · rw [removeState, if_neg hk, lookupState]
      by_cases hki : k = i
      · have hie : ¬ i = e := by
          intro hh
          exact hk (hki.trans hh)
        rw [if_pos hki, if_neg hie, lookupState, if_pos hki]
      · rw [if_neg hki, ih]
        by_cases hie : i = e
        · simp [hie]
        · simp [hie, lookupState, hki]

theorem updatedEventState_last (m : StateMap) (e k v : String) :
    (updatedEventState m e k v).last_updated = v := by
  simp only [updatedEventState]
  split_ifs with h1 h2 h3 <;> simp_all

theorem memStr_insertSorted (x k : String) (l : List String) :
    memStr k (insertSorted x l) = (if k = x then true else memStr k l) := by
  induction l with
  | nil => simp [insertSorted, memStr]
  | cons y ys ih =>
    by_cases hxy : x ≤ y
    · simp [insertSorted, hxy, memStr]
    · by_cases hky : k = y
      · simp [insertSorted, hxy, memStr, hky]
      · simp [insertSorted, hxy, memStr, hky, ih]

theorem memStr_sortStrings (k : String) (l : List String) :
    memStr k (sortStrings l) = memStr k l := by
  induction l with
  | nil => rfl
  | cons x xs ih => simp [sortStrings, memStr, memStr_insertSorted, ih]

theorem memStr_append_self (k : String) (l : List String) :
    memStr k (l ++ [k]) = true := by
  induction l with
  | nil => simp [memStr]
  | cons y ys ih => by_cases h : k = y <;> simp [memStr, h, ih]

theorem memStr_updatedEventState (m : StateMap) (e k v : String) :
    memStr k (updatedEventState m e k v).sent = true := by
  simp only [updatedEventState]
  split_ifs with h1 h2 h3 <;>
    simp_all [memStr, memStr_sortStrings, memStr_append_self]

theorem updatedEventState_stable (m : StateMap) (e k v : String) (st : EventState)
    (h1 : lookupState m e = some st) (h2 : st.last_updated = v)
    (h3 : memStr k st.sent = true) :
    updatedEventState m e k v = st := by
  simp only [updatedEventState, h1]
  simp [h2, h3]

/-! ## Lemmas about the engine -/

theorem processReminder_cleared (env : Env) (now : PyDateTime) (ev : Event)
    (key : String) (r : Reminder) (st : TickSt) :
    (processReminder env now ev key r st).cleared = st.cleared := by
  unfold processReminder
  split
  · split <;> rfl
  · rfl

theorem processReminder_due (env : Env) (now : PyDateTime) (ev : Event)
    (key : String) (r : Reminder) (st : TickSt)
    (h1 : r.trigger.instant ≤ now.instant)
    (h2 : hasSent st.store.mem ev.id r.kind key = false)
    (h3 : env.sendOk st.calls.length = true) :
    processReminder env now ev key r st =
      { store := (st.store.markSent ev.id r.kind key (env.persistOk st.nPersist)).1,
        calls := st.calls ++ [r.pre ++ ev.summary ++ r.post],
        cleared := st.cleared, nPersist := st.nPersist + 1 } := by
  unfold processReminder
  rw [if_pos ⟨h1, h2⟩, if_pos h3]

theorem processEvent_of_attach (env : Env) (now : PyDateTime) (ev : Event)
    (st : TickSt) (start : PyDateTime) (h : attachTz env ev = some start) :
    processEvent env now ev st =
      ((remindersFor start).foldl
        (fun acc r =>
          processReminder env now ev (isoformat (ev.updated_at.getD ev.start_time)) r acc)
        st, false) := by
  unfold processEvent
  rw [h]

theorem processEvent_cleared (env : Env) (now : PyDateTime) (ev : Event) (st : TickSt) :
    (processEvent env now ev st).1.cleared = st.cleared := by
  unfold processEvent
  rcases h : attachTz env ev with _ | start
  · rfl
  · simp only [remindersFor, List.foldl, processReminder_cleared]

theorem processEvents_cleared (env : Env) (now : PyDateTime) (evs : List Event)
    (st : TickSt) :
    (processEvents env now evs st).1.cleared = st.cleared := by
  induction evs generalizing st with
  | nil => rfl
  | cons ev rest ih =>
    unfold processEvents
    rcases h : processEvent env now ev st with ⟨st', b⟩
    have hc : st'.cleared = st.cleared := by
      have hpc := processEvent_cleared env now ev st
      rw [h] at hpc
      exact hpc
    cases b
    · simpa using (ih st').trans hc
    · simpa using hc

theorem processEvents_no_raise (env : Env) (now : PyDateTime) (evs : List Event)
    (st : TickSt) (h : ∀ ev ∈ evs, (attachTz env ev).isSome = true) :
    (processEvents env now evs st).2 = false := by
  induction evs generalizing st with
  | nil => rfl
  | cons ev rest ih =>
    have hev := h ev (List.mem_cons_self ev rest)
    rcases hs : attachTz env ev with _ | start
    · rw [hs] at hev
      simp at hev
    · unfold processEvents
      rw [processEvent_of_attach env now ev st start hs]
      exact ih _ (fun x hx => h x (List.mem_cons_of_mem _ hx))

theorem clearEvent_ok (s : Store) (e : String) :
    (s.clearEvent e true).2 = true := by
  unfold Store.clearEvent
  split <;> rfl

theorem clearEvent_lookup_self (s : Store) (e : String) :
    lookupState ((s.clearEvent e true).1).mem e = none := by
  unfold Store.clearEvent
  split
  · show lookupState (removeState s.mem e) e = none
    rw [lookup_removeState, if_pos rfl]
  · next h =>
    rcases hl : lookupState s.mem e with _ | v
    · rfl
    · exact absurd (by rw [hl]; rfl) h

theorem clearEvent_preserves_absent (s : Store) (e i : String) (pok : Bool)
    (h : lookupState s.mem i = none) :
    lookupState ((s.clearEvent e pok).1).mem i = none := by
  unfold Store.clearEvent
  split
  · split
    · show lookupState (removeState s.mem e) i = none
      rw [lookup_removeState]
      by_cases hi : i = e <;> simp [hi, h]
    · show lookupState (removeState s.mem e) i = none
      rw [lookup_removeState]
      by_cases hi : i = e <;> simp [hi, h]
  · exact h

theorem cleanupEvents_spec (env : Env) (hor : Int) (evs : List Event) (st : TickSt)
    (hend : ∀ ev ∈ evs, ev.end_time.off.isSome = true)
    (hpok : ∀ n, env.persistOk n = true) :
    (cleanupEvents env hor evs st).2 = false ∧
    (cleanupEvents env hor evs st).1.cleared
      = st.cleared
        ++ (evs.filter (fun ev => decide (ev.end_time.instant < hor))).map Event.id := by
  induction evs generalizing st with
  | nil => simp [cleanupEvents]
  | cons ev rest ih =>
    have hev := hend ev (List.mem_cons_self ev rest)
    have hrest : ∀ x ∈ rest, x.end_time.off.isSome = true :=
      fun x hx => hend x (List.mem_cons_of_mem _ hx)
    rcases ho : ev.end_time.off with _ | o
    · rw [ho] at hev
      simp at hev
    · simp only [cleanupEvents, ho, hpok, clearEvent_ok, if_true, List.filter_cons]
      by_cases hc : ev.end_time.instant < hor
      · rw [if_pos hc]
        obtain ⟨hr1, hr2⟩ := ih _ hrest
        refine ⟨hr1, ?_⟩
        rw [hr2]
        simp [hc]
      · rw [if_neg hc]
        obtain ⟨hr1, hr2⟩ := ih _ hrest
        refine ⟨hr1, ?_⟩
        rw [hr2]
        simp [hc]

theorem cleanupEvents_preserves_absent (env : Env) (hor : Int) (evs : List Event)
    (st : TickSt) (i : String)
    (h : lookupState st.store.mem i = none) :
    lookupState (cleanupEvents env hor evs st).1.store.mem i = none := by
  induction evs generalizing st with
  | nil => exact h
  | cons ev rest ih =>
    rcases ho : ev.end_time.off with _ | o
    · simp only [cleanupEvents, ho]
      exact h
    · simp only [cleanupEvents, ho]
      by_cases hc : ev.end_time.instant < hor
      · rw [if_pos hc]
        split
        · exact ih _ (clearEvent_preserves_absent _ _ _ _ h)
        · exact clearEvent_preserves_absent _ _ _ _ h
      · rw [if_neg hc]
        exact ih _ h

theorem cleanupEvents_removes (env : Env) (hor : Int) (evs : List Event)
    (st : TickSt) (ev : Event)
    (hend : ∀ x ∈ evs, x.end_time.off.isSome = true)
    (hpok : ∀ n, env.persistOk n = true)
    (hev : ev ∈ evs) (hc : ev.end_time.instant < hor) :
    lookupState (cleanupEvents env hor evs st).1.store.mem ev.id = none := by
  induction evs generalizing st with
  | nil => cases hev
  | cons x rest ih =>
    have hrest : ∀ y ∈ rest, y.end_time.off.isSome = true :=
      fun y hy => hend y (List.mem_cons_of_mem _ hy)
    rcases hx : x.end_time.off with _ | o
    · have hxs := hend x (List.mem_cons_self x rest)
      rw [hx] at hxs
      simp at hxs
    · simp only [cleanupEvents, hx, hpok, clearEvent_ok, if_true]
      rcases List.mem_cons.mp hev with heq | hmem
      · subst heq
        rw [if_pos hc]
        exact cleanupEvents_preserves_absent _ _ _ _ _ (clearEvent_lookup_self _ _)
      · by_cases hcx : x.end_time.instant < hor
        · rw [if_pos hcx]
          exact ih _ hrest hmem
        · rw [if_neg hcx]
          exact ih _ hrest hmem

theorem runTick_some_off (env : Env) (evs : List Event) (s0 : Store) (off : Int)
    (hz : zoneLookup env.zones env.settingsTz = some off) :
    runTick env (some evs) s0 =
      (match processEvents env ⟨env.nowWall, some off⟩ evs ⟨s0, [], [], 0⟩ with
       | (st1, true) => ⟨st1.store, st1.calls, st1.cleared, true⟩
       | (st1, false) =>
         let res :=
           cleanupEvents env ((⟨env.nowWall, some off⟩ : PyDateTime).instant - 60) evs st1
         ⟨res.1.store, res.1.calls, res.1.cleared, res.2⟩) := by
  unfold runTick
  rw [hz]

theorem cleanupEvents_calls (env : Env) (hor : Int) (evs : List Event) (st : TickSt) :
    (cleanupEvents env hor evs st).1.calls = st.calls := by
  induction evs generalizing st with
  | nil => rfl
  | cons ev rest ih =>
    rcases ho : ev.end_time.off with _ | o
    · simp only [cleanupEvents, ho]
    · simp only [cleanupEvents, ho]
      by_cases hc : ev.end_time.instant < hor
      · rw [if_pos hc]
        split
        · rw [ih]
        · rfl
      · rw [if_neg hc]
        exact ih _

/-! ## Lemmas about the file-system model -/

theorem readFile_setFile_self (fs : FS) (p c : String) :
    readFile (setFile fs p c) p = some c := by
  induction fs with
  | nil => simp [setFile, readFile]
  | cons hd tl ih =>
    obtain ⟨q, d⟩ := hd
    by_cases h : q = p
    · simp [setFile, readFile, h]
    · simp [setFile, readFile, h, ih]

theorem readFile_setFile_ne (fs : FS) (p q c : String) (h : ¬ p = q) :
    readFile (setFile fs p c) q = readFile fs q := by
  induction fs with
  | nil => simp [setFile, readFile, h]
  | cons hd tl ih =>
    obtain ⟨r, d⟩ := hd
    by_cases hr : r = p
    · subst hr
      simp [setFile, readFile, h]
    · simp [setFile, readFile, hr, ih]

/-! ## Claims about the state store -/

/-- Claim C1: after `mark_sent(E, K, V)` on any store state, `has_sent(E, K, V)`
returns true and `has_sent(E, K, V2)` returns false for any version `V2 ≠ V`;
and on a mapping with no record for an event id, `has_sent` returns false for
every kind and version. -/
theorem C1_mark_sent_version_dedup (s : Store) (E K V V2 : String)
    (m : StateMap) (e k v : String)
    (hV : V ≠ V2) (hm : lookupState m e = none) :
    hasSent (s.markSent E K V true).1.mem E K V = true ∧
    hasSent (s.markSent E K V true).1.mem E K V2 = false ∧
    hasSent m e k v = false := by
  have hmem : (s.markSent E K V true).1.mem = markSentMem s.mem E K V := rfl
  have hVne : ¬ (updatedEventState s.mem E K V).last_updated = V2 := by
    rw [updatedEventState_last]
    exact hV
  refine ⟨?_, ?_, ?_⟩
  · rw [hmem]
    unfold hasSent markSentMem
    rw [lookup_setState_self]
    simp [updatedEventState_last, memStr_updatedEventState]
  · rw [hmem]
    unfold hasSent markSentMem
    rw [lookup_setState_self]
    simp [hVne]
  · unfold hasSent
    rw [hm]

theorem C1_mark_sent_version_dedup_witness :
    hasSent ((Store.mk [] []).markSent "e1" "2h" "v1" true).1.mem "e1" "2h" "v1" = true ∧
    hasSent ((Store.mk [] []).markSent "e1" "2h" "v1" true).1.mem "e1" "2h" "v2" = false ∧
    hasSent [] "e1" "2h" "v1" = false :=
  C1_mark_sent_version_dedup (Store.mk [] []) "e1" "2h" "v1" "v2" [] "e1" "2h" "v1"
    (by decide) rfl

/-- Claim C2, counterexample: on the empty store, `mark_sent("e1", "2h", "v1")`
with a failing persist raises (surfacing the error), yet afterwards
`has_sent("e1", "2h", "v1")` on the store's queryable (in-memory) state is
true while the durable snapshot is still empty — a state in which the kind
counts as sent but was never persisted, contradicting the claim. -/
theorem C2_counterexample :
    ((Store.mk [] []).markSent "e1" "2h" "v1" false).2 = false ∧
    hasSent ((Store.mk [] []).markSent "e1" "2h" "v1" false).1.mem "e1" "2h" "v1" = true ∧
    ((Store.mk [] []).markSent "e1" "2h" "v1" false).1.disk = [] :=
  ⟨rfl, by decide, rfl⟩

/-- Claim C2 as amended: when the persist fails, `mark_sent` surfaces the
error and the durable snapshot keeps its previous (last successfully
persisted) content, but the send HAS already been recorded in the in-memory
mapping: `has_sent` subsequently reports the kind as sent under that version
even though the updated mapping was never persisted. -/
theorem C2_persist_failure_behaviour (s : Store) (e k v : String) :
    (s.markSent e k v false).2 = false ∧
    (s.markSent e k v false).1.disk = s.disk ∧
    hasSent (s.markSent e k v false).1.mem e k v = true := by
  refine ⟨rfl, rfl, ?_⟩
  show hasSent (markSentMem s.mem e k v) e k v = true
  unfold hasSent markSentMem
  rw [lookup_setState_self]
  simp [updatedEventState_last, memStr_updatedEventState]

/-- Claim C9: `mark_sent(E, K, V)` against an existing record whose version
differs from `V` replaces that record's `sent` set with exactly `[K]` and its
`last_updated` with `V`, and leaves every other event id's record unchanged. -/
theorem C9_version_change_resets_only_this_event (s : Store) (E K V : String)
    (st : EventState) (e' : String)
    (h1 : lookupState s.mem E = some st) (h2 : st.last_updated ≠ V)
    (h3 : e' ≠ E) :
    lookupState (s.markSent E K V true).1.mem E
      = some { sent := [K], last_updated := V } ∧
    lookupState (s.markSent E K V true).1.mem e' = lookupState s.mem e' := by
  have hmem : (s.markSent E K V true).1.mem = markSentMem s.mem E K V := rfl
  have hrec : updatedEventState s.mem E K V = { sent := [K], last_updated := V } := by
    unfold updatedEventState
    simp [h1, h2, memStr, sortStrings, insertSorted]
  constructor
  · rw [hmem, markSentMem, lookup_setState_self, hrec]
  · rw [hmem, markSentMem, lookup_setState_ne _ _ _ _ h3]

theorem C9_version_change_resets_only_this_event_witness :
    lookupState ((Store.mk [("E", ⟨["10m", "2h"], "old"⟩), ("F", ⟨["2h"], "w"⟩)] []).markSent
        "E" "2h" "new" true).1.mem "E" = some { sent := ["2h"], last_updated := "new" } ∧
    lookupState ((Store.mk [("E", ⟨["10m", "2h"], "old"⟩), ("F", ⟨["2h"], "w"⟩)] []).markSent
        "E" "2h" "new" true).1.mem "F"
      = lookupState [("E", ⟨["10m", "2h"], "old"⟩), ("F", ⟨["2h"], "w"⟩)] "F" :=
  C9_version_change_resets_only_this_event
    (Store.mk [("E", ⟨["10m", "2h"], "old"⟩), ("F", ⟨["2h"], "w"⟩)] [])
    "E" "2h" "new" ⟨["10m", "2h"], "old"⟩ "F" (by decide) (by decide) (by decide)

/-- Claim C10: `mark_sent` is idempotent — repeating a call with the same
(event id, kind, version) triple returns the same store (no duplicate `sent`
entries) and succeeds. -/
theorem C10_mark_sent_idempotent (s : Store) (E K V : String) :
    (s.markSent E K V true).1.markSent E K V true = s.markSent E K V true := by
  have hmem : (s.markSent E K V true).1.mem = markSentMem s.mem E K V := rfl
  have hdisk : (s.markSent E K V true).1.disk = markSentMem s.mem E K V := rfl
  have hlu : lookupState (markSentMem s.mem E K V) E
      = some (updatedEventState s.mem E K V) := by
    rw [markSentMem, lookup_setState_self]
  have hstable : updatedEventState (markSentMem s.mem E K V) E K V
      = updatedEventState s.mem E K V :=
    updatedEventState_stable _ _ _ _ _ hlu (updatedEventState_last _ _ _ _)
      (memStr_updatedEventState _ _ _ _)
  have hmm : markSentMem (markSentMem s.mem E K V) E K V = markSentMem s.mem E K V := by
    rw [markSentMem, hstable]
    exact setState_of_lookup _ _ _ hlu
  show ((s.markSent E K V true).1).markSent E K V true = s.markSent E K V true
  unfold Store.markSent
  simp only [hmem, hdisk, hmm, if_pos]

/-! ## Claims about the engine -/


/-- Claim C6: if fetching the event list raises, the tick returns early with
no side effects — no Notifier call, no `clear_event` call, the store (both
the in-memory mapping and the persisted file) exactly as before the tick,
and no exception escaping. -/
theorem C6_fetch_failure_no_side_effects (env : Env) (s0 : Store) :
    runTick env none s0 = { store := s0, calls := [], cleared := [], raised := false } :=
  rfl

/-- Claim C3: for any due (event, kind) step of a tick, if `send_message`
raises, the triple is not marked sent: the store — in-memory mapping and
persisted file alike — is unchanged by the step, so `has_sent` for the
triple is as before and the next tick will re-evaluate and retry it.
(`mark_sent` is reached only on the success branch of the send.) -/
theorem C3_no_mark_on_send_failure (env : Env) (now : PyDateTime) (ev : Event)
    (key : String) (r : Reminder) (st : TickSt)
    (hfail : env.sendOk st.calls.length = false) :
    (processReminder env now ev key r st).store = st.store ∧
    hasSent (processReminder env now ev key r st).store.mem ev.id r.kind key
      = hasSent st.store.mem ev.id r.kind key := by
  have hstore : (processReminder env now ev key r st).store = st.store := by
    unfold processReminder
    split
    · rw [hfail]
      rfl
    · rfl
  exact ⟨hstore, by rw [hstore]⟩

theorem C3_no_mark_on_send_failure_witness :
    (processReminder envSendFail ⟨0, some 0⟩
        { id := "e1", summary := "S", start_time := ⟨60, some 0⟩,
          end_time := ⟨120, some 0⟩, timezone := "UTC", updated_at := none }
        "60+0"
        { kind := "2h", trigger := ⟨-60, some 0⟩,
          pre := template2hPre, post := template2hPost }
        ⟨⟨[], []⟩, [], [], 0⟩).store = Store.mk [] [] ∧
    hasSent (processReminder envSendFail ⟨0, some 0⟩
        { id := "e1", summary := "S", start_time := ⟨60, some 0⟩,
          end_time := ⟨120, some 0⟩, timezone := "UTC", updated_at := none }
        "60+0"
        { kind := "2h", trigger := ⟨-60, some 0⟩,
          pre := template2hPre, post := template2hPost }
        ⟨⟨[], []⟩, [], [], 0⟩).store.mem "e1" "2h" "60+0"
      = hasSent [] "e1" "2h" "60+0" :=
  C3_no_mark_on_send_failure envSendFail ⟨0, some 0⟩
    { id := "e1", summary := "S", start_time := ⟨60, some 0⟩,
      end_time := ⟨120, some 0⟩, timezone := "UTC", updated_at := none }
    "60+0"
    { kind := "2h", trigger := ⟨-60, some 0⟩,
      pre := template2hPre, post := template2hPost }
    ⟨⟨[], []⟩, [], [], 0⟩ rfl

/-- Claim C4, counterexample: with two fetched events, the first raising at
timezone attachment (unknown zone name) and the second due, the tick raises
and performs zero Notifier calls — the same tick on the second event alone
sends both its reminders.  So an exception at a step outside the send/mark
`try` aborts the processing of subsequent events, contradicting the claim. -/
theorem C4_counterexample :
    (runTick (envAllOk 995) (some [evUnknownTz, evDue]) ⟨[], []⟩).raised = true ∧
    (runTick (envAllOk 995) (some [evUnknownTz, evDue]) ⟨[], []⟩).calls = [] ∧
    (runTick (envAllOk 995) (some [evDue]) ⟨[], []⟩).calls
      = [template2hPre ++ "Good" ++ template2hPost,
         template10mPre ++ "Good" ++ template10mPost] :=
  ⟨rfl, rfl, rfl⟩

/-- Claim C4 as amended: only exceptions raised inside the per-reminder
send/mark `try` (send or persist failures) are isolated — the reminder loop
never raises when every event's timezone attaches, whatever the Notifier or
persist outcomes; but an exception at timezone attachment (a step outside
the `try`) aborts the remaining events of the tick. -/
theorem C4_only_send_failures_isolated (env : Env) (now : PyDateTime)
    (evs rest : List Event) (ev : Event) (st st' : TickSt)
    (hall : ∀ x ∈ evs, (attachTz env x).isSome = true)
    (hbad : attachTz env ev = none) :
    (processEvents env now evs st).2 = false ∧
    processEvents env now (ev :: rest) st' = (st', true) := by
  constructor
  · exact processEvents_no_raise env now evs st hall
  · unfold processEvents processEvent
    rw [hbad]

theorem C4_only_send_failures_isolated_witness :
    (processEvents (envAllOk 995) ⟨995, some 0⟩ [evDue]
        ⟨⟨[], []⟩, [], [], 0⟩).2 = false ∧
    processEvents (envAllOk 995) ⟨995, some 0⟩ [evUnknownTz, evDue]
        ⟨⟨[], []⟩, [], [], 0⟩ = (⟨⟨[], []⟩, [], [], 0⟩, true) :=
  C4_only_send_failures_isolated (envAllOk 995) ⟨995, some 0⟩ [evDue] [evDue]
    evUnknownTz ⟨⟨[], []⟩, [], [], 0⟩ ⟨⟨[], []⟩, [], [], 0⟩ (by decide) rfl

/-- Claim C8: in a tick whose reminder pass completes (configured timezone
resolvable, every event's timezone attachable, aware end times, persists
succeeding), `clear_event` is invoked for exactly the fetched events whose
`end_time` is more than 1 hour before `now`, in fetched order; each such
event's record is absent from the store afterwards; and `clear_event` on an
event id with no record is a no-op that succeeds without error. -/
theorem C8_cleanup_exactly_old_events (env : Env) (evs : List Event) (s0 : Store)
    (off : Int) (ev : Event) (m d : StateMap) (e : String) (pok : Bool)
    (hz : zoneLookup env.zones env.settingsTz = some off)
    (hall : ∀ x ∈ evs, (attachTz env x).isSome = true)
    (hend : ∀ x ∈ evs, x.end_time.off.isSome = true)
    (hpok : ∀ n, env.persistOk n = true)
    (hev : ev ∈ evs)
    (hc : ev.end_time.instant < env.nowWall - off - 60)
    (habs : lookupState m e = none) :
    (runTick env (some evs) s0).cleared
      = (evs.filter
          (fun x => decide (x.end_time.instant < env.nowWall - off - 60))).map Event.id ∧
    lookupState (runTick env (some evs) s0).store.mem ev.id = none ∧
    Store.clearEvent ⟨m, d⟩ e pok = (⟨m, d⟩, true) := by
  have hclear : Store.clearEvent ⟨m, d⟩ e pok = (⟨m, d⟩, true) := by
    unfold Store.clearEvent
    rw [habs]
    rfl
  rw [runTick_some_off env evs s0 off hz]
  rcases hp : processEvents env ⟨env.nowWall, some off⟩ evs ⟨s0, [], [], 0⟩ with ⟨st1, b⟩
  have hb : b = false := by
    have hnr := processEvents_no_raise env ⟨env.nowWall, some off⟩ evs ⟨s0, [], [], 0⟩ hall
    rw [hp] at hnr
    exact hnr
  subst hb
  have hclr : st1.cleared = [] := by
    have hpc := processEvents_cleared env ⟨env.nowWall, some off⟩ evs ⟨s0, [], [], 0⟩
    rw [hp] at hpc
    exact hpc
  have hhor : (⟨env.nowWall, some off⟩ : PyDateTime).instant - 60
      = env.nowWall - off - 60 := rfl
  refine ⟨?_, ?_, hclear⟩
  · show (cleanupEvents env ((⟨env.nowWall, some off⟩ : PyDateTime).instant - 60) evs st1).1.cleared = _
    rw [hhor]
    have hcs := (cleanupEvents_spec env (env.nowWall - off - 60) evs st1 hend hpok).2
    rw [hcs, hclr]
    simp
  · show lookupState
        (cleanupEvents env ((⟨env.nowWall, some off⟩ : PyDateTime).instant - 60) evs st1).1.store.mem
        ev.id = none
    rw [hhor]
    exact cleanupEvents_removes env _ evs st1 ev hend hpok hev hc

theorem C8_cleanup_exactly_old_events_witness :
    (runTick (envAllOk 995) (some [evOver]) ⟨[], []⟩).cleared
      = ([evOver].filter
          (fun x => decide (x.end_time.instant < (995 : Int) - 0 - 60))).map Event.id ∧
    lookupState (runTick (envAllOk 995) (some [evOver]) ⟨[], []⟩).store.mem evOver.id = none ∧
    Store.clearEvent ⟨[("x", ⟨["2h"], "v"⟩)], []⟩ "y" true
      = (⟨[("x", ⟨["2h"], "v"⟩)], []⟩, true) :=
  C8_cleanup_exactly_old_events (envAllOk 995) [evOver] ⟨[], []⟩ 0 evOver
    [("x", ⟨["2h"], "v"⟩)] [] "y" true rfl (by decide) (by decide) (fun _ => rfl)
    (by decide) (by decide) rfl

/-- Claim C7: for an event with start time `T` and an empty state store, a
tick at `now = T - 5` minutes sends exactly two Notifier messages for the
event — the "2h" reminder first, then the "10m" reminder (the kinds are
evaluated in ascending order of `start + delta`) — and the tick completes
without raising. -/
theorem C7_due_tick_sends_both_in_order (T : Int) :
    (runTick (env7 T) (some [ev7 T]) ⟨[], []⟩).calls
      = [template2hPre ++ "Standup" ++ template2hPost,
         template10mPre ++ "Standup" ++ template10mPost] ∧
    (runTick (env7 T) (some [ev7 T]) ⟨[], []⟩).raised = false := by
  have hz : zoneLookup (env7 T).zones (env7 T).settingsTz = some 0 := rfl
  have hne : ("10m" : String) = "2h" ↔ False := by
    constructor
    · intro h
      exact absurd h (by decide)
    · intro h
      cases h
  have hupd1 : ∀ K : String, updatedEventState [] "evt-1" "2h" K = ⟨["2h"], K⟩ := by
    intro K
    unfold updatedEventState
    simp [lookupState, memStr, sortStrings, insertSorted]
  have h2b : ∀ K : String,
      hasSent [("evt-1", ⟨["2h"], K⟩)] "evt-1" "10m" K = false := by
    intro K
    simp [hasSent, lookupState, memStr, hne]
  have h1a : ((⟨T, some 0⟩ : PyDateTime).subMinutes 120).instant
      ≤ (⟨(env7 T).nowWall, some 0⟩ : PyDateTime).instant := by
    show (T - 120 : Int) - 0 ≤ (T - 5) - 0
    omega
  have h1b : ((⟨T, some 0⟩ : PyDateTime).subMinutes 10).instant
      ≤ (⟨(env7 T).nowWall, some 0⟩ : PyDateTime).instant := by
    show (T - 10 : Int) - 0 ≤ (T - 5) - 0
    omega
  have hr1 : ∀ K : String, processReminder (env7 T) ⟨(env7 T).nowWall, some 0⟩ (ev7 T) K
      { kind := "2h", trigger := (⟨T, some 0⟩ : PyDateTime).subMinutes 120,
        pre := template2hPre, post := template2hPost }
      ⟨⟨[], []⟩, [], [], 0⟩
      = { store := ⟨[("evt-1", ⟨["2h"], K⟩)], [("evt-1", ⟨["2h"], K⟩)]⟩,
          calls := [template2hPre ++ "Standup" ++ template2hPost],
          cleared := [], nPersist := 1 } := by
    intro K
    rw [processReminder_due (env7 T) ⟨(env7 T).nowWall, some 0⟩ (ev7 T) K
      { kind := "2h", trigger := (⟨T, some 0⟩ : PyDateTime).subMinutes 120,
        pre := template2hPre, post := template2hPost }
      ⟨⟨[], []⟩, [], [], 0⟩ h1a rfl rfl]
    simp [Store.markSent, markSentMem, setState, hupd1, ev7, env7, envAllOk]
  have hr2 : ∀ K : String, processReminder (env7 T) ⟨(env7 T).nowWall, some 0⟩ (ev7 T) K
      { kind := "10m", trigger := (⟨T, some 0⟩ : PyDateTime).subMinutes 10,
        pre := template10mPre, post := template10mPost }
      { store := ⟨[("evt-1", ⟨["2h"], K⟩)], [("evt-1", ⟨["2h"], K⟩)]⟩,
        calls := [template2hPre ++ "Standup" ++ template2hPost],
        cleared := [], nPersist := 1 }
      = { store := ⟨markSentMem [("evt-1", ⟨["2h"], K⟩)] "evt-1" "10m" K,
                    markSentMem [("evt-1", ⟨["2h"], K⟩)] "evt-1" "10m" K⟩,
          calls := [template2hPre ++ "Standup" ++ template2hPost,
                    template10mPre ++ "Standup" ++ template10mPost],
          cleared := [], nPersist := 2 } := by
    intro K
    rw [processReminder_due (env7 T) ⟨(env7 T).nowWall, some 0⟩ (ev7 T) K
      { kind := "10m", trigger := (⟨T, some 0⟩ : PyDateTime).subMinutes 10,
        pre := template10mPre, post := template10mPost }
      { store := ⟨[("evt-1", ⟨["2h"], K⟩)], [("evt-1", ⟨["2h"], K⟩)]⟩,
        calls := [template2hPre ++ "Standup" ++ template2hPost],
        cleared := [], nPersist := 1 } h1b (h2b K) rfl]
    simp [Store.markSent, ev7, env7, envAllOk]
  have hattach : attachTz (env7 T) (ev7 T) = some ⟨T, some 0⟩ := rfl
  have hfold2 : processEvent (env7 T) ⟨(env7 T).nowWall, some 0⟩ (ev7 T)
      ⟨⟨[], []⟩, [], [], 0⟩
      = ({ store := ⟨markSentMem
              [("evt-1", ⟨["2h"], isoformat ((ev7 T).updated_at.getD (ev7 T).start_time)⟩)]
              "evt-1" "10m" (isoformat ((ev7 T).updated_at.getD (ev7 T).start_time)),
            markSentMem
              [("evt-1", ⟨["2h"], isoformat ((ev7 T).updated_at.getD (ev7 T).start_time)⟩)]
              "evt-1" "10m" (isoformat ((ev7 T).updated_at.getD (ev7 T).start_time))⟩,
           calls := [template2hPre ++ "Standup" ++ template2hPost,
                     template10mPre ++ "Standup" ++ template10mPost],
           cleared := [], nPersist := 2 }, false) := by
    rw [processEvent_of_attach _ _ _ _ _ hattach]
    simp only [remindersFor, List.foldl]
    rw [hr1, hr2]
  have hpes : processEvents (env7 T) ⟨(env7 T).nowWall, some 0⟩ [ev7 T]
      ⟨⟨[], []⟩, [], [], 0⟩
      = ({ store := ⟨markSentMem
              [("evt-1", ⟨["2h"], isoformat ((ev7 T).updated_at.getD (ev7 T).start_time)⟩)]
              "evt-1" "10m" (isoformat ((ev7 T).updated_at.getD (ev7 T).start_time)),
            markSentMem
              [("evt-1", ⟨["2h"], isoformat ((ev7 T).updated_at.getD (ev7 T).start_time)⟩)]
              "evt-1" "10m" (isoformat ((ev7 T).updated_at.getD (ev7 T).start_time))⟩,
           calls := [template2hPre ++ "Standup" ++ template2hPost,
                     template10mPre ++ "Standup" ++ template10mPost],
           cleared := [], nPersist := 2 }, false) := by
    unfold processEvents
    rw [hfold2]
    rfl
  rw [runTick_some_off _ _ _ _ hz, hpes]
  have hend : ∀ x ∈ [ev7 T], x.end_time.off.isSome = true := by
    intro x hx
    rw [List.mem_singleton.mp hx]
    rfl
  constructor
  · show (cleanupEvents (env7 T) _ [ev7 T] _).1.calls = _
    rw [cleanupEvents_calls]
  · show (cleanupEvents (env7 T) _ [ev7 T] _).2 = false
    exact (cleanupEvents_spec _ _ _ _ hend (fun _ => rfl)).1

/-- Claim C5, counterexample: `_persist` opens the state file itself in mode
"w", truncating it in place; interrupting the persist right after that
truncating open leaves the file empty, destroying the prior valid snapshot
"\x7b\x7d" was standing for — and the trace performed is not the spec's
write-temp-then-rename. -/
theorem C5_counterexample :
    applyOps [("state.json", "PRIOR")] ((persistTrace "state.json" "NEW").take 1)
      = [("state.json", "")] ∧
    persistTrace "state.json" "NEW"
      ≠ specAtomicReplaceTrace "state.json.tmp" "state.json" "NEW" :=
  ⟨rfl, by decide⟩

/-- Claim C5 as amended: `_persist` overwrites the snapshot in place — a
truncating open of the target path followed by the write, with no temporary
file and no rename — so a persist interrupted after the truncating open has
already replaced the prior valid snapshot with an empty file; by contrast,
the spec's write-temp-then-rename leaves the prior snapshot intact at every
interruption point short of the rename. -/
theorem C5_persist_not_atomic (path tmp payload prior : String) (k : Nat)
    (hpt : ¬ tmp = path) (hpr : ¬ prior = "") (hk : k < 3) :
    persistTrace path payload
      = [FileOp.openTrunc path, FileOp.writeChunk path payload] ∧
    readFile (applyOps [(path, prior)] ((persistTrace path payload).take 1)) path
      = some "" ∧
    ¬ ((some "" : Option String) = some prior) ∧
    readFile (applyOps [(path, prior)]
        ((specAtomicReplaceTrace tmp path payload).take k)) path
      = some prior := by
  refine ⟨rfl, ?_, ?_, ?_⟩
  · show readFile (setFile [(path, prior)] path "") path = some ""
    exact readFile_setFile_self _ _ _
  · intro h
    exact hpr (Option.some.inj h).symm
  · interval_cases k
    · show readFile [(path, prior)] path = some prior
      simp [readFile]
    · show readFile (setFile [(path, prior)] tmp "") path = some prior
      rw [readFile_setFile_ne _ _ _ _ hpt]
      simp [readFile]
    · show readFile
          (setFile (setFile [(path, prior)] tmp "") tmp
            ((readFile (setFile [(path, prior)] tmp "") tmp).getD "" ++ payload)) path
        = some prior
      rw [readFile_setFile_ne _ _ _ _ hpt, readFile_setFile_ne _ _ _ _ hpt]
      simp [readFile]

theorem C5_persist_not_atomic_witness :
    persistTrace "state.json" "NEW"
      = [FileOp.openTrunc "state.json", FileOp.writeChunk "state.json" "NEW"] ∧
    readFile (applyOps [("state.json", "OLD")]
        ((persistTrace "state.json" "NEW").take 1)) "state.json" = some "" ∧
    ¬ ((some "" : Option String) = some "OLD") ∧
    readFile (applyOps [("state.json", "OLD")]
        ((specAtomicReplaceTrace "state.json.tmp" "state.json" "NEW").take 2)) "state.json"
      = some "OLD" :=
  C5_persist_not_atomic "state.json" "state.json.tmp" "NEW" "OLD" 2
    (by decide) (by decide) (by decide)

end NudgeMe
